import Mathlib

/-!
Verification of the estimator-evaluation harness in
`src/statistics/JupyterNotebooks/chap08ex.ipynb` (Think Stats, chapter 8
exercises).

Modelling conventions:

* Sample values are exact rationals (`ℚ`).  The notebook works with Python
  floats; the claims under study are exact arithmetic identities, length
  invariants and determinism properties, for which `ℚ` is the faithful
  idealisation.  Square roots and logarithms force `ℝ` where they appear.
* The ambient random source (`random.gauss`, `np.random.normal`,
  `np.random.exponential`, `random.expovariate`) is modelled as an infinite
  stream `f : ℕ → ℚ` of pre-drawn values, consumed sequentially: position
  `s` in the stream is the generator state, and drawing a sample of size
  `n` yields `f s, f (s+1), …, f (s+n-1)` and advances the state to
  `s + n`.  The distribution transform lives inside the external sampler,
  so the parameters `mu`, `sigma`, `lam` that only feed the sampler do not
  appear in the embedded loops.
* `np.mean` of an empty array returns NaN (with a runtime warning): the
  call produces no usable value.  That degenerate outcome is modelled as
  `Option.none`; on a non-empty list `npMean` returns the actual mean.
  Inside the simulation loops every sample has the caller-supplied length
  `n` and the code takes its genuine mean, which the total function `mean`
  computes (its value at `[]` is junk and never relied upon).
-/

/-- The sample of size `n` drawn from stream `f` starting at state `s`:
`[f s, f (s+1), …, f (s+n-1)]`. -/
def sampleAt (f : ℕ → ℚ) (s n : ℕ) : List ℚ :=
  (List.range n).map (fun j => f (s + j))

/-- The list of `iters` consecutive samples of size `n` drawn from stream `f`
starting at state `s`: iteration `i` gets the sample at state `s + i*n`. -/
def samplesFrom (f : ℕ → ℚ) (n s iters : ℕ) : List (List ℚ) :=
  (List.range iters).map (fun i => sampleAt f (s + i * n) n)

/-- The samples of a whole run: `iters` consecutive samples of size `n`
drawn from stream `f` starting at state `0`. -/
def samplesOf (f : ℕ → ℚ) (n iters : ℕ) : List (List ℚ) :=
  samplesFrom f n 0 iters

/-- Arithmetic mean of a list, `xs.sum / xs.length` (the value of `np.mean`
on a non-empty array; at `[]` the rational division by zero yields the junk
value `0`, a case the simulation loops never produce for `n ≥ 1`). -/
def mean (xs : List ℚ) : ℚ :=
  xs.sum / (xs.length : ℚ)

/-- `np.mean` with its degenerate case made explicit: on an empty array
NumPy emits a warning and produces NaN, i.e. no usable value, modelled as
`none`; otherwise the arithmetic mean. -/
def npMean (xs : List ℚ) : Option ℚ :=
  if xs = [] then none else some (mean xs)

/-- `np.median`: sort the sample; the middle element for odd length, the
average of the two middle elements for even length (junk `0` at `[]`). -/
def npMedian (xs : List ℚ) : ℚ :=
  let s := xs.insertionSort (· ≤ ·)
  if xs.length % 2 = 1 then s.getD (xs.length / 2) 0
  else (s.getD (xs.length / 2 - 1) 0 + s.getD (xs.length / 2) 0) / 2

/-- Modelled from the spec: `thinkstats2.Median` is imported by the
notebook but its source is not part of this repository; the spec describes
it as the sample median used by the median-based rate estimator, so it is
modelled as the standard sample median. -/
def tsMedian (xs : List ℚ) : ℚ :=
  npMedian xs

/-- `np.var(xs, ddof)`: sum of squared deviations from the mean divided by
`len(xs) - ddof` (`ddof = 0` is the biased population variance, `ddof = 1`
the bias-corrected sample variance). -/
def npVar (xs : List ℚ) (ddof : ℕ) : ℚ :=
  (xs.map (fun x => (x - mean xs) ^ 2)).sum / ((xs.length - ddof : ℕ) : ℚ)

/-- `RMSE(estimates, actual)` from the notebook: square the deviations,
take `np.mean`, then `np.sqrt`.  The `np.mean` of the empty list of squared
errors produces no value (`none`). -/
noncomputable def RMSE (estimates : List ℚ) (actual : ℚ) : Option ℝ :=
  (npMean (estimates.map (fun estimate => (estimate - actual) ^ 2))).map
    (fun (mse : ℚ) => Real.sqrt (mse : ℝ))

/-- `MeanError(estimates, actual)` from the notebook: `np.mean` of the
signed errors (no value on the empty list). -/
def MeanError (estimates : List ℚ) (actual : ℚ) : Option ℚ :=
  npMean (estimates.map (fun estimate => estimate - actual))

/-- The loop of `Estimate1`, started at stream state `s`: for each of
`iters` iterations draw one sample `xs` of size `n`, append `np.mean xs` to
`means` and `np.median xs` to `medians`. -/
def estimate1Aux (f : ℕ → ℚ) (n : ℕ) : ℕ → ℕ → List ℚ × List ℚ
  | 0, _ => ([], [])
  | iters + 1, s =>
    let xs := sampleAt f s n
    let rest := estimate1Aux f n iters (s + n)
    (mean xs :: rest.1, npMedian xs :: rest.2)

/-- `Estimate1(n, iters)`: the pair `(means, medians)` of EstimateSets it
accumulates and hands to `RMSE` (the sampler `random.gauss(mu, sigma)` is
abstracted as the stream `f`). -/
def Estimate1 (n iters : ℕ) (f : ℕ → ℚ) : List ℚ × List ℚ :=
  estimate1Aux f n iters 0

/-- The loop of `Estimate2`, started at stream state `s`: per iteration one
sample `xs`, appending `np.var xs` (biased) and `np.var xs, ddof=1`
(unbiased). -/
def estimate2Aux (f : ℕ → ℚ) (n : ℕ) : ℕ → ℕ → List ℚ × List ℚ
  | 0, _ => ([], [])
  | iters + 1, s =>
    let xs := sampleAt f s n
    let rest := estimate2Aux f n iters (s + n)
    (npVar xs 0 :: rest.1, npVar xs 1 :: rest.2)

/-- `Estimate2(n, iters)`: the pair `(estimates1, estimates2)` of biased and
unbiased variance EstimateSets. -/
def Estimate2 (n iters : ℕ) (f : ℕ → ℚ) : List ℚ × List ℚ :=
  estimate2Aux f n iters 0

/-- The loop of `Estimate3`, started at stream state `s`: per iteration one
sample `xs`, appending `L = 1 / np.mean xs` and
`Lm = log 2 / thinkstats2.Median xs`. -/
noncomputable def estimate3Aux (f : ℕ → ℚ) (n : ℕ) : ℕ → ℕ → List ℚ × List ℝ
  | 0, _ => ([], [])
  | iters + 1, s =>
    let xs := sampleAt f s n
    let rest := estimate3Aux f n iters (s + n)
    (1 / mean xs :: rest.1, Real.log 2 / (tsMedian xs : ℝ) :: rest.2)

/-- `Estimate3(n, iters)`: the pair `(means, medians)` of rate-estimator
EstimateSets (the sampler `np.random.exponential(1/lam, n)` is abstracted
as the stream `f`). -/
noncomputable def Estimate3 (n iters : ℕ) (f : ℕ → ℚ) : List ℚ × List ℝ :=
  estimate3Aux f n iters 0

/-- The loop of `SimulateSample`, started at stream state `s`: per
iteration one sample of size `n`, appending its mean to `xbars`. -/
def simulateSampleAux (f : ℕ → ℚ) (n : ℕ) : ℕ → ℕ → List ℚ
  | 0, _ => []
  | iters + 1, s => mean (sampleAt f s n) :: simulateSampleAux f n iters (s + n)

/-- `SimulateSample(mu, sigma, n, iters)`: the `xbars` EstimateSet (the
sampler `np.random.normal(mu, sigma, n)` is abstracted as the stream). -/
def SimulateSample (n iters : ℕ) (f : ℕ → ℚ) : List ℚ :=
  simulateSampleAux f n iters 0

/-- Modelled from the spec: the generic
`RunTrial(sampleSize, iterations, estimatorFns)` operation of the harness
is described in the spec but appears in the notebook only as its concrete
instances `Estimate1` / `Estimate2` / `Estimate3`.  Per iteration it draws
one fresh sample and appends each estimator's value on that same sample to
that estimator's EstimateSet. -/
def runTrialAux (f : ℕ → ℚ) (n : ℕ) (ests : List (List ℚ → ℚ)) :
    ℕ → ℕ → List (List ℚ)
  | 0, _ => ests.map (fun _ => [])
  | iters + 1, s =>
    let xs := sampleAt f s n
    List.zipWith (fun est rest => est xs :: rest) ests
      (runTrialAux f n ests iters (s + n))

/-- Modelled from the spec: `RunTrial` run from the initial generator
state, returning one EstimateSet per estimator function. -/
def RunTrial (n iters : ℕ) (ests : List (List ℚ → ℚ)) (f : ℕ → ℚ) :
    List (List ℚ) :=
  runTrialAux f n ests iters 0

/-- Cumulative arrival time of the first `m` inter-goal times drawn from
stream `f` starting at state `s`. -/
def psum (f : ℕ → ℚ) (s m : ℕ) : ℚ :=
  (sampleAt f s m).sum

/-- The `while True` loop of `SimulateGame` terminates from state `s` iff
some cumulative arrival time exceeds one game. -/
def gameTerm (f : ℕ → ℚ) (s : ℕ) : Prop :=
  ∃ k, 1 < psum f s (k + 1)

/-- `SimulateGame(lam)` run at stream state `s` (the sampler
`random.expovariate(lam)` is abstracted as the stream `f`): repeatedly draw
an inter-goal time and add it to `t`; stop as soon as `t > 1`, returning
the number of goals counted before that, i.e. the least `k` such that the
`(k+1)`-st cumulative arrival time exceeds `1`.  The loop consumes
`SimulateGame … + 1` draws. -/
def SimulateGame (f : ℕ → ℚ) (s : ℕ) (h : gameTerm f s) : ℕ :=
  Nat.find h

/-- The loop of `ManyGames`, started at stream state `s`: play `m` games in
sequence, each continuing from the stream state where the previous one
stopped, collecting the goal counts. -/
def manyGamesAux (f : ℕ → ℚ) (h : ∀ s, gameTerm f s) : ℕ → ℕ → List ℕ
  | 0, _ => []
  | m + 1, s =>
    SimulateGame f s (h s) ::
      manyGamesAux f h m (s + (SimulateGame f s (h s) + 1))

/-- `ManyGames(lam)`: its loop `for i in range(1, 10000)` plays `9999`
games and collects the `goals` EstimateSet handed to `RMSE` and
`MeanError`. -/
def ManyGames (f : ℕ → ℚ) (h : ∀ s, gameTerm f s) : List ℕ :=
  manyGamesAux f h 9999 0

/-! ### Basic sample lemmas -/

lemma sampleAt_length (f : ℕ → ℚ) (s n : ℕ) : (sampleAt f s n).length = n := by
  simp [sampleAt]

lemma samplesFrom_length (f : ℕ → ℚ) (n s iters : ℕ) :
    (samplesFrom f n s iters).length = iters := by
  simp [samplesFrom]

lemma samplesFrom_succ (f : ℕ → ℚ) (n s iters : ℕ) :
    samplesFrom f n s (iters + 1) =
      sampleAt f s n :: samplesFrom f n (s + n) iters := by
  unfold samplesFrom
  rw [List.range_succ_eq_map]
  simp only [List.map_cons, List.map_map]
  congr 1
  · simp
  refine List.map_congr_left (fun i _ => ?_)
  simp only [Function.comp]
  congr 1
  simp only [Nat.succ_eq_add_one]
  ring

lemma sampleAt_congr (f1 f2 : ℕ → ℚ) (s n : ℕ)
    (h : ∀ j, j < n → f1 (s + j) = f2 (s + j)) :
    sampleAt f1 s n = sampleAt f2 s n := by
  unfold sampleAt
  refine List.map_congr_left (fun j hj => ?_)
  exact h j (List.mem_range.mp hj)

lemma samplesOf_congr (f1 f2 : ℕ → ℚ) (n iters : ℕ)
    (h : ∀ k, k < iters * n → f1 k = f2 k) :
    samplesOf f1 n iters = samplesOf f2 n iters := by
  unfold samplesOf samplesFrom
  refine List.map_congr_left (fun i hi => ?_)
  refine sampleAt_congr f1 f2 _ n (fun j hj => ?_)
  refine h _ ?_
  have hi' : i < iters := List.mem_range.mp hi
  calc 0 + i * n + j < i * n + n := by omega
    _ = (i + 1) * n := by ring
    _ ≤ iters * n := Nat.mul_le_mul_right n hi'

/-! ### Loop/sample correspondence lemmas -/

lemma estimate1Aux_eq (f : ℕ → ℚ) (n : ℕ) :
    ∀ iters s, estimate1Aux f n iters s =
      ((samplesFrom f n s iters).map mean, (samplesFrom f n s iters).map npMedian)
  | 0, s => by simp [estimate1Aux, samplesFrom]
  | iters + 1, s => by
    rw [samplesFrom_succ]
    simp [estimate1Aux, estimate1Aux_eq f n iters (s + n)]

lemma estimate2Aux_eq (f : ℕ → ℚ) (n : ℕ) :
    ∀ iters s, estimate2Aux f n iters s =
      ((samplesFrom f n s iters).map (fun xs => npVar xs 0),
       (samplesFrom f n s iters).map (fun xs => npVar xs 1))
  | 0, s => by simp [estimate2Aux, samplesFrom]
  | iters + 1, s => by
    rw [samplesFrom_succ]
    simp [estimate2Aux, estimate2Aux_eq f n iters (s + n)]

lemma estimate3Aux_eq (f : ℕ → ℚ) (n : ℕ) :
    ∀ iters s, estimate3Aux f n iters s =
      ((samplesFrom f n s iters).map (fun xs => 1 / mean xs),
       (samplesFrom f n s iters).map (fun xs => Real.log 2 / (tsMedian xs : ℝ)))
  | 0, s => by simp [estimate3Aux, samplesFrom]
  | iters + 1, s => by
    rw [samplesFrom_succ]
    simp [estimate3Aux, estimate3Aux_eq f n iters (s + n)]

lemma simulateSampleAux_eq (f : ℕ → ℚ) (n : ℕ) :
    ∀ iters s, simulateSampleAux f n iters s = (samplesFrom f n s iters).map mean
  | 0, s => by simp [simulateSampleAux, samplesFrom]
  | iters + 1, s => by
    rw [samplesFrom_succ]
    simp [simulateSampleAux, simulateSampleAux_eq f n iters (s + n)]

lemma runTrialAux_eq (f : ℕ → ℚ) (n : ℕ) (ests : List (List ℚ → ℚ)) :
    ∀ iters s, runTrialAux f n ests iters s =
      ests.map (fun est => (samplesFrom f n s iters).map est)
  | 0, s => by simp [runTrialAux, samplesFrom]
  | iters + 1, s => by
    rw [samplesFrom_succ]
    rw [runTrialAux, runTrialAux_eq f n ests iters (s + n)]
    rw [List.zipWith_map_right, List.zipWith_same]
    simp

/-! ### Arrival-time lemmas for `SimulateGame` -/

lemma psum_succ (f : ℕ → ℚ) (s m : ℕ) :
    psum f s (m + 1) = psum f s m + f (s + m) := by
  unfold psum sampleAt
  rw [List.range_succ]
  simp

lemma psum_mono (f : ℕ → ℚ) (hpos : ∀ k, 0 < f k) (s : ℕ) :
    ∀ a b, a ≤ b → psum f s a ≤ psum f s b := by
  intro a b hab
  induction b, hab using Nat.le_induction with
  | base => exact le_refl _
  | succ b _ ih =>
    rw [psum_succ]
    have := hpos (s + b)
    linarith

lemma simulateGame_lt_psum (f : ℕ → ℚ) (s : ℕ) (h : gameTerm f s) :
    1 < psum f s (SimulateGame f s h + 1) :=
  Nat.find_spec h

lemma simulateGame_min (f : ℕ → ℚ) (s : ℕ) (h : gameTerm f s) :
    ∀ k, k < SimulateGame f s h → psum f s (k + 1) ≤ 1 := by
  intro k hk
  have := Nat.find_min h hk
  exact le_of_not_lt this

lemma manyGamesAux_length (f : ℕ → ℚ) (h : ∀ s, gameTerm f s) :
    ∀ m s, (manyGamesAux f h m s).length = m
  | 0, s => by simp [manyGamesAux]
  | m + 1, s => by
    rw [manyGamesAux]
    simp [manyGamesAux_length f h m]

/-- The constant stream of inter-goal times `1` makes every game stop after
its second draw, so `SimulateGame` terminates from every state. -/
lemma gameTermOne : ∀ s, gameTerm (fun _ => (1 : ℚ)) s := by
  intro s
  refine ⟨1, ?_⟩
  rw [psum_succ, psum_succ]
  norm_num [psum, sampleAt]

/-- The constant stream of inter-goal times `2` exceeds one game on the
first draw, so `SimulateGame` terminates from every state. -/
lemma gameTermTwo : ∀ s, gameTerm (fun _ => (2 : ℚ)) s := by
  intro s
  refine ⟨0, ?_⟩
  rw [psum_succ]
  norm_num [psum, sampleAt]

/-- The constant stream of inter-goal times `3/5` overshoots one game at
the second draw, so `SimulateGame` terminates from state `0`. -/
lemma gameTermThreeFifths : gameTerm (fun _ => (3 : ℚ) / 5) 0 := by
  refine ⟨1, ?_⟩
  rw [psum_succ, psum_succ]
  norm_num [psum, sampleAt]

/-! ### Mean and error arithmetic -/

lemma sum_map_sub_const (l : List ℚ) (a : ℚ) :
    (l.map (fun e => e - a)).sum = l.sum - l.length * a := by
  induction l with
  | nil => simp
  | cons x xs ih =>
    simp [ih]
    ring

lemma sum_map_add_const (l : List ℚ) (c : ℚ) :
    (l.map (fun e => e + c)).sum = l.sum + l.length * c := by
  induction l with
  | nil => simp
  | cons x xs ih =>
    simp [ih]
    ring

lemma meanError_eq (l : List ℚ) (a : ℚ) (h : l ≠ []) :
    MeanError l a = some ((l.sum - l.length * a) / l.length) := by
  unfold MeanError npMean
  rw [if_neg (by simp [h])]
  rw [mean, sum_map_sub_const]
  simp

/-! ### Claim theorems -/

/-- C1: in every trial run (`RunTrial` / `Estimate1` / `Estimate3`) each
iteration draws a single sample and every estimator function is applied to
that identical sample: the EstimateSets are exactly the maps of the
estimators over one shared per-iteration sample list (`samplesOf f n iters`),
so no estimator sees an independently drawn sample within an iteration. -/
theorem estimators_share_sample (n iters : ℕ) (ests : List (List ℚ → ℚ))
    (f : ℕ → ℚ) :
    RunTrial n iters ests f = ests.map (fun est => (samplesOf f n iters).map est) ∧
    Estimate1 n iters f =
      ((samplesOf f n iters).map mean, (samplesOf f n iters).map npMedian) ∧
    Estimate3 n iters f =
      ((samplesOf f n iters).map (fun xs => 1 / mean xs),
       (samplesOf f n iters).map (fun xs => Real.log 2 / (tsMedian xs : ℝ))) := by
  refine ⟨?_, ?_, ?_⟩
  · rw [RunTrial, runTrialAux_eq, samplesOf]
  · rw [Estimate1, estimate1Aux_eq, samplesOf]
  · rw [Estimate3, estimate3Aux_eq, samplesOf]

/-- C2: on a non-empty estimates list, `RMSE` returns the square root of
the mean squared deviation of the estimates from the actual value. -/
theorem rmse_is_root_mean_square (estimates : List ℚ) (actual : ℚ)
    (h : estimates ≠ []) :
    RMSE estimates actual =
      some (Real.sqrt
        (((estimates.map (fun e => (e - actual) ^ 2)).sum /
          (estimates.length : ℚ) : ℚ) : ℝ)) := by
  unfold RMSE npMean
  rw [if_neg (by simp [h])]
  simp [mean]

/-- Witness for C2 at the singleton input `[3]` with actual value `1`. -/
theorem rmse_is_root_mean_square_witness :
    RMSE [3] 1 =
      some (Real.sqrt
        ((([(3 : ℚ)].map (fun e => (e - 1) ^ 2)).sum /
          ([(3 : ℚ)].length : ℚ) : ℚ) : ℝ)) :=
  rmse_is_root_mean_square [3] 1 (by decide)

/-- C3: on the empty estimates list both `RMSE` and `MeanError` produce no
value (NumPy's NaN outcome, modelled as `none`); on every non-empty list
both succeed with a result. -/
theorem rmse_meanError_empty_fails (actual : ℚ) :
    RMSE [] actual = none ∧ MeanError [] actual = none ∧
      ∀ estimates : List ℚ, estimates ≠ [] →
        (RMSE estimates actual).isSome = true ∧
          (MeanError estimates actual).isSome = true := by
  refine ⟨by simp [RMSE, npMean], by simp [MeanError, npMean], ?_⟩
  intro estimates h
  constructor
  · unfold RMSE npMean
    rw [if_neg (by simp [h])]
    rfl
  · unfold MeanError npMean
    rw [if_neg (by simp [h])]
    rfl

/-- Witness for C3 at actual value `0` and non-empty input `[1]`. -/
theorem rmse_meanError_empty_fails_witness :
    RMSE [] 0 = none ∧ MeanError [] 0 = none ∧
      (RMSE [1] 0).isSome = true ∧ (MeanError [1] 0).isSome = true :=
  ⟨(rmse_meanError_empty_fails 0).1, (rmse_meanError_empty_fails 0).2.1,
    (rmse_meanError_empty_fails 0).2.2 [1] (by decide)⟩

/-- C4: `Estimate2` accumulates, over one shared per-iteration sample list,
the pair of variance estimates per sample, and on samples of size at least
two these are the population variance (sum of squared deviations over `n`)
and the bias-corrected sample variance (over `n - 1`). -/
theorem estimate2_contrasts_biased_unbiased (n iters : ℕ) (f : ℕ → ℚ) :
    Estimate2 n iters f =
      ((samplesOf f n iters).map (fun xs => npVar xs 0),
       (samplesOf f n iters).map (fun xs => npVar xs 1)) ∧
    ∀ xs : List ℚ, 2 ≤ xs.length →
      npVar xs 0 = (xs.map (fun x => (x - mean xs) ^ 2)).sum / (xs.length : ℚ) ∧
      npVar xs 1 =
        (xs.map (fun x => (x - mean xs) ^ 2)).sum / ((xs.length : ℚ) - 1) := by
  refine ⟨by rw [Estimate2, estimate2Aux_eq, samplesOf], ?_⟩
  intro xs hxs
  constructor
  · simp [npVar]
  · unfold npVar
    rw [Nat.cast_sub (by omega : 1 ≤ xs.length)]
    norm_num

/-- Witness for C4 on the concrete sample `[1, 3]` of size two. -/
theorem estimate2_contrasts_biased_unbiased_witness :
    npVar [1, 3] 0 =
      (([1, 3] : List ℚ).map (fun x => (x - mean [1, 3]) ^ 2)).sum /
        ((([1, 3] : List ℚ).length : ℕ) : ℚ) ∧
    npVar [1, 3] 1 =
      (([1, 3] : List ℚ).map (fun x => (x - mean [1, 3]) ^ 2)).sum /
        (((([1, 3] : List ℚ).length : ℕ) : ℚ) - 1) :=
  (estimate2_contrasts_biased_unbiased 2 1 (fun _ => 0)).2 [1, 3] (by decide)

/-- C5: a trial run is deterministic in its random source: two runs of the
`Estimate1` / `SimulateSample` loops with the same parameters and two
generators that agree on every draw the run consumes (the first
`iters * n` stream values) produce identical EstimateSets. -/
theorem runTrial_deterministic (n iters : ℕ) (f1 f2 : ℕ → ℚ)
    (hagree : ∀ k, k < iters * n → f1 k = f2 k) :
    Estimate1 n iters f1 = Estimate1 n iters f2 ∧
    SimulateSample n iters f1 = SimulateSample n iters f2 := by
  have hs : samplesFrom f1 n 0 iters = samplesFrom f2 n 0 iters :=
    samplesOf_congr f1 f2 n iters hagree
  constructor
  · rw [Estimate1, Estimate1, estimate1Aux_eq, estimate1Aux_eq, hs]
  · rw [SimulateSample, SimulateSample, simulateSampleAux_eq,
      simulateSampleAux_eq, hs]

/-- Witness for C5: two generators that agree on the two consumed draws
(but differ later) give identical results for `n = 1`, `iters = 2`. -/
theorem runTrial_deterministic_witness :
    Estimate1 1 2 (fun k => (k : ℚ)) =
      Estimate1 1 2 (fun k => if k < 2 then (k : ℚ) else 0) ∧
    SimulateSample 1 2 (fun k => (k : ℚ)) =
      SimulateSample 1 2 (fun k => if k < 2 then (k : ℚ) else 0) :=
  runTrial_deterministic 1 2 _ _ (by
    intro k hk
    rw [if_pos (by omega)])

/-- C7: `MeanError` is linear in a constant shift: adding `c` to every
estimate adds exactly `c` to the mean error. -/
theorem meanError_shift_linear (estimates : List ℚ) (actual c : ℚ)
    (h : estimates ≠ []) :
    ∃ m, MeanError estimates actual = some m ∧
      MeanError (estimates.map (fun e => e + c)) actual = some (m + c) := by
  refine ⟨(estimates.sum - estimates.length * actual) / estimates.length,
    meanError_eq estimates actual h, ?_⟩
  rw [meanError_eq _ actual (by simp [h])]
  rw [sum_map_add_const]
  simp only [List.length_map]
  congr 1
  have hlen : (estimates.length : ℚ) ≠ 0 :=
    Nat.cast_ne_zero.mpr (fun h0 => h (List.length_eq_zero.mp h0))
  field_simp
  ring

/-- Witness for C7 at estimates `[1, 2]`, actual `0`, and shift `5`. -/
theorem meanError_shift_linear_witness :
    ∃ m, MeanError [1, 2] 0 = some m ∧
      MeanError (([1, 2] : List ℚ).map (fun e => e + 5)) 0 = some (m + 5) :=
  meanError_shift_linear [1, 2] 0 5 (by decide)

/-- C9: whenever `RMSE` returns a value, that value is non-negative. -/
theorem rmse_nonneg (estimates : List ℚ) (actual : ℚ) (r : ℝ)
    (h : RMSE estimates actual = some r) : 0 ≤ r := by
  unfold RMSE at h
  cases hnp : npMean (estimates.map (fun estimate => (estimate - actual) ^ 2)) with
  | none => rw [hnp] at h; simp at h
  | some mse =>
    rw [hnp] at h
    simp only [Option.map_some', Option.some.injEq] at h
    rw [← h]
    exact Real.sqrt_nonneg _

/-- Witness for C9 at the input `[3]` with actual value `1`. -/
theorem rmse_nonneg_witness :
    ∃ r, RMSE [3] 1 = some r ∧ 0 ≤ r := by
  have hval : RMSE [3] 1 = some (Real.sqrt (((4 : ℚ) : ℝ))) := by
    unfold RMSE npMean
    norm_num [mean]
  exact ⟨_, hval, rmse_nonneg [3] 1 _ hval⟩

/-- C6: every EstimateSet produced by the harness loops has length equal to
the requested iteration count (9999 for `ManyGames`, whose loop is
`range(1, 10000)`), and every drawn sample (`Trial`) has the requested
sample size `n`. -/
theorem estimateSet_and_trial_lengths (n iters : ℕ) (f : ℕ → ℚ)
    (ests : List (List ℚ → ℚ)) (g : ℕ → ℚ) (hg : ∀ s, gameTerm g s) :
    (Estimate1 n iters f).1.length = iters ∧
    (Estimate1 n iters f).2.length = iters ∧
    (Estimate2 n iters f).1.length = iters ∧
    (Estimate2 n iters f).2.length = iters ∧
    (Estimate3 n iters f).1.length = iters ∧
    (Estimate3 n iters f).2.length = iters ∧
    (SimulateSample n iters f).length = iters ∧
    (∀ es ∈ RunTrial n iters ests f, es.length = iters) ∧
    (∀ xs ∈ samplesOf f n iters, xs.length = n) ∧
    (ManyGames g hg).length = 9999 := by
  refine ⟨?_, ?_, ?_, ?_, ?_, ?_, ?_, ?_, ?_, ?_⟩
  · rw [Estimate1, estimate1Aux_eq]; simp [samplesFrom_length]
  · rw [Estimate1, estimate1Aux_eq]; simp [samplesFrom_length]
  · rw [Estimate2, estimate2Aux_eq]; simp [samplesFrom_length]
  · rw [Estimate2, estimate2Aux_eq]; simp [samplesFrom_length]
  · rw [Estimate3, estimate3Aux_eq]; simp [samplesFrom_length]
  · rw [Estimate3, estimate3Aux_eq]; simp [samplesFrom_length]
  · rw [SimulateSample, simulateSampleAux_eq]; simp [samplesFrom_length]
  · intro es hes
    rw [RunTrial, runTrialAux_eq] at hes
    obtain ⟨est, -, rfl⟩ := List.mem_map.mp hes
    simp [samplesFrom_length]
  · intro xs hxs
    rw [samplesOf] at hxs
    unfold samplesFrom at hxs
    obtain ⟨i, -, rfl⟩ := List.mem_map.mp hxs
    exact sampleAt_length f _ n
  · rw [ManyGames]
    exact manyGamesAux_length g hg 9999 0

/-- Witness for C6 at `n = 2`, `iters = 3` and the constant stream `2` for
the game loop. -/
theorem estimateSet_and_trial_lengths_witness :
    (Estimate1 2 3 (fun k => (k : ℚ))).1.length = 3 ∧
    (SimulateSample 2 3 (fun k => (k : ℚ))).length = 3 ∧
    (ManyGames (fun _ => (2 : ℚ)) gameTermTwo).length = 9999 :=
  ⟨(estimateSet_and_trial_lengths 2 3 (fun k => (k : ℚ)) [mean]
      (fun _ => 2) gameTermTwo).1,
   (estimateSet_and_trial_lengths 2 3 (fun k => (k : ℚ)) [mean]
      (fun _ => 2) gameTermTwo).2.2.2.2.2.2.1,
   (estimateSet_and_trial_lengths 2 3 (fun k => (k : ℚ)) [mean]
      (fun _ => 2) gameTermTwo).2.2.2.2.2.2.2.2.2⟩

/-- C8: with strictly positive inter-goal times, `SimulateGame` returns
exactly the number of arrivals whose cumulative time is at most one game
(stated both as a characterisation of which arrivals count and as a
cardinality), and this count estimator differs from the inverse-mean
estimator `1 / mean xs` of `Estimate3` on the inter-goal times it drew
(concretely, constant times `3/5` give one goal but inverse mean `5/3`). -/
theorem simulateGame_counts_goals (f : ℕ → ℚ) (hpos : ∀ k, 0 < f k)
    (h : gameTerm f 0) :
    (∀ m, 1 ≤ m → (psum f 0 m ≤ 1 ↔ m ≤ SimulateGame f 0 h)) ∧
    (∀ B, SimulateGame f 0 h ≤ B →
      ((Finset.Icc 1 B).filter (fun m => psum f 0 m ≤ 1)).card =
        SimulateGame f 0 h) ∧
    SimulateGame (fun _ => (3 : ℚ) / 5) 0 gameTermThreeFifths = 1 ∧
    (1 : ℚ) / mean (sampleAt (fun _ => (3 : ℚ) / 5) 0
        (SimulateGame (fun _ => (3 : ℚ) / 5) 0 gameTermThreeFifths + 1)) ≠
      (SimulateGame (fun _ => (3 : ℚ) / 5) 0 gameTermThreeFifths : ℚ) := by
  have hiff : ∀ m, 1 ≤ m → (psum f 0 m ≤ 1 ↔ m ≤ SimulateGame f 0 h) := by
    intro m hm
    constructor
    · intro hle
      by_contra hgt
      push_neg at hgt
      have h2 : psum f 0 (SimulateGame f 0 h + 1) ≤ psum f 0 m :=
        psum_mono f hpos 0 _ _ hgt
      have h3 : 1 < psum f 0 (SimulateGame f 0 h + 1) :=
        simulateGame_lt_psum f 0 h
      linarith
    · intro hle
      obtain ⟨k, rfl⟩ : ∃ k, m = k + 1 := ⟨m - 1, by omega⟩
      exact simulateGame_min f 0 h k (by omega)
  have hfind : SimulateGame (fun _ => (3 : ℚ) / 5) 0 gameTermThreeFifths = 1 := by
    rw [SimulateGame, Nat.find_eq_iff]
    constructor
    · rw [psum_succ, psum_succ]
      norm_num [psum, sampleAt]
    · intro k hk
      have hk0 : k = 0 := by omega
      subst hk0
      rw [psum_succ]
      norm_num [psum, sampleAt]
  refine ⟨hiff, ?_, hfind, ?_⟩
  · intro B hB
    have hset : (Finset.Icc 1 B).filter (fun m => psum f 0 m ≤ 1) =
        Finset.Icc 1 (SimulateGame f 0 h) := by
      ext m
      simp only [Finset.mem_filter, Finset.mem_Icc]
      constructor
      · rintro ⟨⟨h1m, -⟩, hps⟩
        exact ⟨h1m, (hiff m h1m).mp hps⟩
      · rintro ⟨h1m, hmL⟩
        exact ⟨⟨h1m, le_trans hmL hB⟩, (hiff m h1m).mpr hmL⟩
    rw [hset, Nat.card_Icc]
    omega
  · rw [hfind]
    have hsample : sampleAt (fun _ => (3 : ℚ) / 5) 0 (1 + 1) = [3 / 5, 3 / 5] := by
      simp [sampleAt, List.range_succ]
    rw [hsample]
    norm_num [mean]

/-- Witness for C8 with the constant stream of inter-goal times `2`, at
arrival `m = 1`. -/
theorem simulateGame_counts_goals_witness :
    (psum (fun _ => (2 : ℚ)) 0 1 ≤ 1 ↔
      1 ≤ SimulateGame (fun _ => (2 : ℚ)) 0 (gameTermTwo 0)) :=
  (simulateGame_counts_goals (fun _ => 2) (fun k => by norm_num)
    (gameTermTwo 0)).1 1 (by omega)

/-- C10: `ManyGames` aggregates exactly 9999 game simulations: its `goals`
EstimateSet has length 9999 for every terminating stream. -/
theorem manyGames_has_9999_games (f : ℕ → ℚ) (h : ∀ s, gameTerm f s) :
    (ManyGames f h).length = 9999 := by
  rw [ManyGames]
  exact manyGamesAux_length f h 9999 0

/-- Witness for C10 with the constant stream of inter-goal times `1`. -/
theorem manyGames_has_9999_games_witness :
    (ManyGames (fun _ => (1 : ℚ)) gameTermOne).length = 9999 :=
  manyGames_has_9999_games (fun _ => 1) gameTermOne
